import Mathlib

/-
  Verification development for the netcode-game repository.

  Shallow embedding of the core data model and operations:
  constants.rs, types.rs, game.rs, prediction.rs, interpolation.rs,
  network.rs (and the pending-input push site of input.rs).

  Machine integers are embedded as Int with explicit saturation where the
  source uses saturating arithmetic (i32), and as Nat for u32/u64 fields.
  f64/f32 wall-clock times are embedded as exact rationals; every concrete
  time value used below is a dyadic rational, hence exactly representable
  in the floating-point type of the source, so the comparisons agree.
-/

namespace Netcode

/-! Constants, from src/constants.rs -/

def WINDOW_WIDTH : Int := 1024
def WINDOW_HEIGHT : Int := 768
def TOOL_BAR_HEIGHT : Int := 40
def BOARD_WIDTH : Int := 1024
def BOARD_HEIGHT : Int := 768
def PLAYER_SIZE : Int := 20
def PLAYER_SPEED : Int := 5

/-- MAX_POSITION_HISTORY from src/game.rs line 8 (server history, 60). -/
def GAME_MAX_POSITION_HISTORY : Nat := 60

/-- MAX_POSITION_HISTORY from src/constants.rs line 43 (interpolation, 30). -/
def INTERP_MAX_POSITION_HISTORY : Nat := 30

/-! i32 saturating arithmetic, used by the movement rules. -/

def I32_MIN : Int := -(2 ^ 31)
def I32_MAX : Int := 2 ^ 31 - 1

def saturating_add (a b : Int) : Int := min I32_MAX (max I32_MIN (a + b))

def saturating_sub (a b : Int) : Int := min I32_MAX (max I32_MIN (a - b))

/-- u32 wrapping subtraction (release-mode Rust semantics), for the
    `server_sequence - self.last_confirmed_sequence` expression in
    src/prediction.rs line 76. -/
def u32_wrapping_sub (a b : Nat) : Nat := (a % 2 ^ 32 + 2 ^ 32 - b % 2 ^ 32) % 2 ^ 32

/-! Wire types, from src/types.rs -/

inductive Direction where
  | Up
  | Down
  | Left
  | Right
deriving DecidableEq, Repr

structure Position where
  x : Int
  y : Int
deriving DecidableEq, Repr

structure PlayerInput where
  dir : Direction
  sequence : Nat
  timestamp : Nat
deriving DecidableEq, Repr

structure PositionSnapshot where
  position : Position
  timestamp : Nat
deriving DecidableEq, Repr

structure InterpolatedPosition where
  position : Position
  timestamp : Rat
  sequence : Nat
deriving DecidableEq, Repr

/-! Movement rules.

    The server rule is the four-way match in Game::handle_input
    (src/game.rs lines 99-104); the client rule is the four-way match in
    PredictionState::apply_prediction (src/prediction.rs lines 36-41).
    They are embedded separately, each from its own source location. -/

/-- Position update of Game::handle_input, src/game.rs lines 99-104. -/
def handle_input_move (dir : Direction) (p : Position) : Position :=
  match dir with
  | Direction.Up => { p with y := max (saturating_sub p.y PLAYER_SPEED) PLAYER_SIZE }
  | Direction.Down => { p with y := min (saturating_add p.y PLAYER_SPEED) (BOARD_HEIGHT - PLAYER_SIZE - TOOL_BAR_HEIGHT) }
  | Direction.Left => { p with x := max (saturating_sub p.x PLAYER_SPEED) PLAYER_SIZE }
  | Direction.Right => { p with x := min (saturating_add p.x PLAYER_SPEED) (BOARD_WIDTH - PLAYER_SIZE) }

/-- Position update of PredictionState::apply_prediction,
    src/prediction.rs lines 36-41. -/
def apply_prediction_move (dir : Direction) (p : Position) : Position :=
  match dir with
  | Direction.Up => { p with y := max (saturating_sub p.y PLAYER_SPEED) PLAYER_SIZE }
  | Direction.Down => { p with y := min (saturating_add p.y PLAYER_SPEED) (BOARD_HEIGHT - PLAYER_SIZE - TOOL_BAR_HEIGHT) }
  | Direction.Left => { p with x := max (saturating_sub p.x PLAYER_SPEED) PLAYER_SIZE }
  | Direction.Right => { p with x := min (saturating_add p.x PLAYER_SPEED) (BOARD_WIDTH - PLAYER_SIZE) }

/-- The movement rule as the specification words it: displace by
    PLAYER_SPEED along the input direction, then clamp x to
    [PLAYER_SIZE, BOARD_WIDTH - PLAYER_SIZE] and y to
    [PLAYER_SIZE, BOARD_HEIGHT - PLAYER_SIZE - TOOL_BAR_HEIGHT].
    Written from the spec sentence, for the refinement comparison of C1. -/
def spec_move (dir : Direction) (p : Position) : Position :=
  let q : Position :=
    match dir with
    | Direction.Up => { p with y := p.y - PLAYER_SPEED }
    | Direction.Down => { p with y := p.y + PLAYER_SPEED }
    | Direction.Left => { p with x := p.x - PLAYER_SPEED }
    | Direction.Right => { p with x := p.x + PLAYER_SPEED }
  { x := min (max q.x PLAYER_SIZE) (BOARD_WIDTH - PLAYER_SIZE),
    y := min (max q.y PLAYER_SIZE) (BOARD_HEIGHT - PLAYER_SIZE - TOOL_BAR_HEIGHT) }

/-- A position inside the board bounds used by the game (the range in
    which Game::connect_player spawns players). -/
def inBounds (p : Position) : Prop :=
  PLAYER_SIZE ≤ p.x ∧ p.x ≤ BOARD_WIDTH - PLAYER_SIZE ∧
  PLAYER_SIZE ≤ p.y ∧ p.y ≤ BOARD_HEIGHT - PLAYER_SIZE - TOOL_BAR_HEIGHT

instance (p : Position) : Decidable (inBounds p) := by
  unfold inBounds
  infer_instance

/-! PredictionState, from src/prediction.rs.

    VecDeque is embedded as List: push_back appends at the right,
    the front is the list head, pop_front drops the head. -/

structure PredictionState where
  next_sequence : Nat
  pending_inputs : List (Nat × PlayerInput)
  position_history : List (Nat × Position)
  last_confirmed_sequence : Nat
  last_confirmed_position : Position
  last_reconciliation_time : Rat
deriving DecidableEq, Repr

/-- PredictionState::new, src/prediction.rs lines 19-28. -/
def PredictionState.new (initial_position : Position) : PredictionState :=
  { next_sequence := 0,
    pending_inputs := [],
    position_history := [],
    last_confirmed_sequence := 0,
    last_confirmed_position := initial_position,
    last_reconciliation_time := 0 }

/-- PredictionState::apply_prediction, src/prediction.rs lines 31-42.
    The `&mut Position` out-parameter becomes the second component of the
    returned pair. -/
def PredictionState.apply_prediction (st : PredictionState) (input : PlayerInput)
    (current_position : Position) : PredictionState × Position :=
  ({ st with position_history := st.position_history ++ [(input.sequence, current_position)] },
   apply_prediction_move input.dir current_position)

/-- The `while let Some((seq, _)) = front ... if seq <= server_sequence
    then pop_front else break` purge loops of PredictionState::reconcile,
    src/prediction.rs lines 57-63 and 66-72. -/
def dropConfirmed (server_sequence : Nat) : List (Nat × α) → List (Nat × α)
  | [] => []
  | (seq, x) :: rest =>
      if seq ≤ server_sequence then dropConfirmed server_sequence rest
      else (seq, x) :: rest

/-- PredictionState::reconcile, src/prediction.rs lines 45-82.
    Note that the code overwrites last_confirmed_sequence with
    server_sequence (line 53) before the sequence-gap test (line 76) reads
    it back; the embedding reproduces that order faithfully. -/
def PredictionState.reconcile (st : PredictionState) (server_position : Position)
    (server_sequence : Nat) (current_time : Rat) : PredictionState :=
  if server_sequence > st.last_confirmed_sequence then
    let time_since_last : Rat := current_time - st.last_reconciliation_time
    let st1 : PredictionState :=
      { st with last_reconciliation_time := current_time,
                last_confirmed_sequence := server_sequence,
                last_confirmed_position := server_position }
    let st2 : PredictionState :=
      { st1 with pending_inputs := dropConfirmed server_sequence st1.pending_inputs,
                 position_history := dropConfirmed server_sequence st1.position_history }
    if u32_wrapping_sub server_sequence st2.last_confirmed_sequence > 5 ∨ time_since_last > 1/2 then
      { st2 with pending_inputs := [], position_history := [] }
    else st2
  else st

/-- PredictionState::reapply_pending_inputs, src/prediction.rs lines 85-96.
    Resets the out-parameter to the confirmed baseline, then folds
    apply_prediction over the pending inputs in queue order. -/
def PredictionState.reapply_pending_inputs (st : PredictionState)
    (_current_position : Position) : PredictionState × Position :=
  let start := st.last_confirmed_position
  let inputs := st.pending_inputs.map (fun e => e.2)
  inputs.foldl
    (fun (acc : PredictionState × Position) input =>
      PredictionState.apply_prediction acc.1 input acc.2)
    (st, start)

/-- Pending-input push site of InputHandler::handle_input,
    src/input.rs lines 79-80 (identical at lines 113-114): append the
    input to the pending queue and advance next_sequence; no eviction. -/
def PredictionState.record_pending_input (st : PredictionState) (input : PlayerInput) : PredictionState :=
  { st with pending_inputs := st.pending_inputs ++ [(st.next_sequence, input)],
            next_sequence := st.next_sequence + 1 }

/-! InterpolationState, from src/interpolation.rs -/

structure InterpolationState where
  position_history : List InterpolatedPosition
  interpolation_delay : Rat
  last_sequence : Nat
  last_position : Option Position
deriving DecidableEq, Repr

/-- INTERPOLATION_DELAY from src/constants.rs line 7 (0.016, exactly
    representable only approximately in the source f32; the concrete value
    never enters any claim proved here, only the structure carries it). -/
def INTERPOLATION_DELAY : Rat := 16/1000

/-- InterpolationState::new, src/interpolation.rs lines 17-24. -/
def InterpolationState.new : InterpolationState :=
  { position_history := [],
    interpolation_delay := INTERPOLATION_DELAY,
    last_sequence := 0,
    last_position := none }

/-- The `while len > MAX_POSITION_HISTORY { pop_front }` loop of
    InterpolationState::add_position, src/interpolation.rs lines 42-44. -/
def popFrontWhileOver (cap : Nat) (l : List α) : List α :=
  if l.length > cap then popFrontWhileOver cap l.tail else l
termination_by l.length
decreasing_by
  cases l with
  | nil => simp at *
  | cons a as => simp [List.length_cons]

/-- InterpolationState::add_position, src/interpolation.rs lines 27-47. -/
def InterpolationState.add_position (st : InterpolationState) (position : Position)
    (timestamp : Rat) (sequence : Nat) : InterpolationState :=
  if sequence ≤ st.last_sequence then st
  else
    { st with
      last_sequence := sequence,
      position_history :=
        popFrontWhileOver INTERP_MAX_POSITION_HISTORY
          (st.position_history ++ [{ position := position, timestamp := timestamp, sequence := sequence }]),
      last_position := some position }

/-! Game (server-side session store), from src/game.rs.

    SocketAddr and Uuid are embedded as Nat keys; each HashMap is embedded
    as a function to Option, insert overwriting pointwise and remove
    clearing the key. Instant-based fields become Nat millisecond stamps
    threaded as parameters. -/

structure PlayerState where
  position : Position
  color : Nat
  last_active : Nat
  position_history : List PositionSnapshot
deriving DecidableEq, Repr

structure Game where
  players : Nat → Option PlayerState
  id_to_addr : Nat → Option Nat
  addr_to_id : Nat → Option Nat
  last_processed : Nat → Option Nat

/-- Game::new, src/game.rs lines 30-37. -/
def Game.new : Game :=
  { players := fun _ => none,
    id_to_addr := fun _ => none,
    addr_to_id := fun _ => none,
    last_processed := fun _ => none }

/-- Game::handle_input, src/game.rs lines 89-118. `now` is the
    wall-clock millisecond stamp the source reads from Instant::now. -/
def Game.handle_input (g : Game) (addr : Nat) (input : PlayerInput) (now : Nat) : Game :=
  match g.players addr with
  | none => g
  | some player =>
    let last_processed1 : Nat → Option Nat :=
      match g.addr_to_id addr with
      | some id => fun k => if k = id then some input.sequence else g.last_processed k
      | none => g.last_processed
    let new_position := handle_input_move input.dir player.position
    let hist1 := player.position_history ++ [{ position := new_position, timestamp := now }]
    let hist2 := if hist1.length > GAME_MAX_POSITION_HISTORY then hist1.tail else hist1
    { g with
      players := fun a =>
        if a = addr then
          some { position := new_position,
                 color := player.color,
                 last_active := now,
                 position_history := hist2 }
        else g.players a,
      last_processed := last_processed1 }

/-- Game::disconnect_player, src/game.rs lines 147-153: removes the
    address/id mappings, the last-processed entry and the live session
    outright (no DisconnectedRecord is kept in the source). -/
def Game.disconnect_player (g : Game) (addr : Nat) : Game :=
  match g.addr_to_id addr with
  | some id =>
    { players := fun a => if a = addr then none else g.players a,
      id_to_addr := fun k => if k = id then none else g.id_to_addr k,
      addr_to_id := fun a => if a = addr then none else g.addr_to_id a,
      last_processed := fun k => if k = id then none else g.last_processed k }
  | none =>
    { g with players := fun a => if a = addr then none else g.players a }

/-! NetworkClient (network simulator), from src/network.rs.

    Serialized payloads are embedded as the messages themselves;
    rand draws become explicit parameters: the Bernoulli draw of
    random_bool(p) is a uniform rational r in [0,1) with outcome r < p,
    and the jitter draw of random_range(-5..=5) is an explicit integer. -/

inductive ClientMessage where
  | Connect
  | PlayerId (id : Nat)
  | Input (input : PlayerInput)
  | Ping (timestamp : Nat)
  | Pong (timestamp : Nat)
deriving DecidableEq, Repr

structure DelayedPacket where
  data : ClientMessage
  send_time : Int
  sequence : Nat
  delay : Int
deriving DecidableEq, Repr

structure NetworkClient where
  delay_ms : Int
  packet_loss : Int
  delayed_packets : List DelayedPacket
deriving DecidableEq, Repr

/-- NetworkClient::simulate_network_conditions, src/network.rs lines
    81-84: random_bool(packet_loss / 100) with the uniform draw r. -/
def simulate_network_conditions (packet_loss : Int) (r : Rat) : Bool :=
  r < (packet_loss : Rat) / 100

/-- NetworkClient::send_connect, src/network.rs lines 38-42: serializes
    Connect and sends it unconditionally (no loss or delay simulation). -/
def NetworkClient.send_connect (_c : NetworkClient) : Option ClientMessage :=
  some ClientMessage.Connect

/-- NetworkClient::send_ping, src/network.rs lines 45-49: serializes
    Ping(timestamp) and sends it unconditionally. -/
def NetworkClient.send_ping (_c : NetworkClient) (timestamp : Nat) : Option ClientMessage :=
  some (ClientMessage.Ping timestamp)

/-- NetworkClient::send_input, src/network.rs lines 52-68. Returns the
    updated client and the datagram transmitted immediately, if any.
    r is the loss draw, jitter the random_range(-5..=5) draw, now the
    Instant::now stamp in milliseconds. -/
def NetworkClient.send_input (c : NetworkClient) (input : PlayerInput)
    (r : Rat) (jitter : Int) (now : Int) : NetworkClient × Option ClientMessage :=
  if simulate_network_conditions c.packet_loss r then
    (c, none)
  else
    if c.delay_ms > 0 then
      let delay := max (c.delay_ms + jitter) 0
      ({ c with delayed_packets :=
          c.delayed_packets ++
            [{ data := ClientMessage.Input input, send_time := now,
               sequence := input.sequence, delay := delay }] },
       none)
    else
      (c, some (ClientMessage.Input input))

/-- Elapsed-delay test of the flush loop, src/network.rs line 93:
    now.duration_since(send_time) >= Duration::from_millis(delay as u64).
    duration_since saturates at zero; the i32-to-u64 cast is value mod
    2^64 (delays enqueued by send_input are always nonnegative). -/
def packetReady (now : Int) (p : DelayedPacket) : Bool :=
  p.delay % 2 ^ 64 ≤ max (now - p.send_time) 0

/-- The collection loop of NetworkClient::process_delayed_packets,
    src/network.rs lines 92-99: pop and collect front packets while the
    front is ready, stopping at the first packet that is not. Returns
    (collected ready batch, remaining queue). -/
def collectReady (now : Int) : List DelayedPacket → List DelayedPacket × List DelayedPacket
  | [] => ([], [])
  | p :: rest =>
      if packetReady now p then
        let pr := collectReady now rest
        (p :: pr.1, pr.2)
      else ([], p :: rest)

/-- NetworkClient::process_delayed_packets, src/network.rs lines 87-111.
    The ready batch is shuffled before transmission; the shuffle is an
    arbitrary permutation drawn from the rng, so the function returns the
    client with the remaining queue together with the collected batch,
    and theorems about transmission speak of the batch up to order. -/
def NetworkClient.process_delayed_packets (c : NetworkClient) (now : Int) :
    NetworkClient × List DelayedPacket :=
  let pr := collectReady now c.delayed_packets
  ({ c with delayed_packets := pr.2 }, pr.1)

/-- NetworkClient::receive_data, src/network.rs lines 114-129: first
    drain the delay queue, then apply the inbound loss draw; on a drop
    return none, otherwise decode whatever datagram is available.
    `incoming` is the already-decoded datagram the socket would yield. -/
def NetworkClient.receive_data (c : NetworkClient) (r : Rat) (now : Int)
    (incoming : Option ClientMessage) : NetworkClient × Option ClientMessage :=
  let c1 := (c.process_delayed_packets now).1
  if simulate_network_conditions c1.packet_loss r then
    (c1, none)
  else
    (c1, incoming)

/-! Reconnect-capable session store.

    The repository ships no Reconnect message, no DisconnectedRecord and
    no grace period under src/ (ClientMessage in src/types.rs has only
    Connect/PlayerId/Input/Ping/Pong, and Game::disconnect_player in
    src/game.rs drops every trace of the player); the reconnect-capable
    variant exists only in the specification. The definitions below are
    therefore modelled from the specification text, not from src/. -/

/-- Modelled from the spec: a live session of the reconnect-capable
    SessionStore variant (identity, position, color); the variant is
    missing from src/. -/
structure ReconnectSession where
  id : Nat
  position : Position
  color : Nat
deriving DecidableEq, Repr

/-- Modelled from the spec: DisconnectedRecord - last known position,
    color, disconnect timestamp; exists only during the reconnection
    grace window, keyed by player id. Missing from src/. -/
structure DisconnectedRecord where
  position : Position
  color : Nat
  disconnect_time : Nat
deriving DecidableEq, Repr

/-- Modelled from the spec: the reconnect-capable session store - live
    sessions keyed by address, the id-to-address index, the
    DisconnectedRecord table keyed by id, and a fresh-id allocator.
    Missing from src/. -/
structure ReconnectStore where
  live : Nat → Option ReconnectSession
  id_to_addr : Nat → Option Nat
  records : Nat → Option DisconnectedRecord
  next_id : Nat

/-- Modelled from the spec: disconnect(address) of the reconnect-capable
    variant - removes the live session and snapshots its position/color
    into a DisconnectedRecord keyed by id, stamped with the disconnect
    time. Missing from src/. -/
def ReconnectStore.disconnect (g : ReconnectStore) (addr : Nat) (now : Nat) : ReconnectStore :=
  match g.live addr with
  | some s =>
    { g with
      live := fun a => if a = addr then none else g.live a,
      id_to_addr := fun k => if k = s.id then none else g.id_to_addr k,
      records := fun k =>
        if k = s.id then some { position := s.position, color := s.color, disconnect_time := now }
        else g.records k }
  | none => g

/-- Modelled from the spec: reconnect(address, previous_id,
    claimed_position) - succeeds only if previous_id has a
    DisconnectedRecord, that id is not presently mapped to any live
    address, and the grace period has not yet elapsed; on success removes
    the record and re-creates a live session at claimed_position bound to
    the new address and the same id, color carried over. On failure
    (unknown id or grace period already elapsed) the caller falls back to
    a fresh connect. Missing from src/. -/
def ReconnectStore.reconnect (g : ReconnectStore) (addr previous_id : Nat)
    (claimed_position : Position) (now grace_period : Nat) : ReconnectStore × Bool :=
  match g.records previous_id with
  | some record =>
    if g.id_to_addr previous_id = none ∧ now < record.disconnect_time + grace_period then
      ({ g with
         records := fun k => if k = previous_id then none else g.records k,
         live := fun a =>
           if a = addr then
             some { id := previous_id, position := claimed_position, color := record.color }
           else g.live a,
         id_to_addr := fun k => if k = previous_id then some addr else g.id_to_addr k },
       true)
    else (g, false)
  | none => (g, false)

/-- Modelled from the spec: connect(address) - idempotent on a live
    address, otherwise allocates a fresh id and a spawn position/color
    (the random draws are explicit parameters here) and creates the
    session. Missing from src/ only in its reconnect-capable role; the
    id-freshness of the allocator is the next_id counter invariant. -/
def ReconnectStore.connect (g : ReconnectStore) (addr : Nat)
    (spawn_position : Position) (spawn_color : Nat) : ReconnectStore × Nat :=
  match g.live addr with
  | some s => (g, s.id)
  | none =>
    ({ g with
       live := fun a =>
         if a = addr then
           some { id := g.next_id, position := spawn_position, color := spawn_color }
         else g.live a,
       id_to_addr := fun k => if k = g.next_id then some addr else g.id_to_addr k,
       next_id := g.next_id + 1 },
     g.next_id)

/-! Helper lemmas -/

/-- The position component of folding apply_prediction over an input list
    is the fold of the bare movement rule. -/
theorem foldl_apply_prediction_snd (inputs : List PlayerInput) :
    ∀ (st : PredictionState) (p : Position),
      (inputs.foldl
        (fun (acc : PredictionState × Position) input =>
          PredictionState.apply_prediction acc.1 input acc.2) (st, p)).2 =
      inputs.foldl (fun q i => apply_prediction_move i.dir q) p := by
  induction inputs with
  | nil => intro st p; rfl
  | cons i rest ih =>
      intro st p
      simp only [List.foldl_cons]
      exact ih _ _

/-- reconcile is the identity when the ack is not newer than the last
    confirmed sequence. -/
theorem reconcile_stale_noop (st : PredictionState) (p : Position) (s : Nat) (t : Rat)
    (h : ¬ s > st.last_confirmed_sequence) : st.reconcile p s t = st := by
  unfold PredictionState.reconcile
  rw [if_neg h]

/-- After a reconcile that takes the newer-ack branch, the confirmed
    sequence equals the ack. -/
theorem reconcile_last_confirmed (st : PredictionState) (p : Position) (s : Nat) (t : Rat)
    (h : s > st.last_confirmed_sequence) : (st.reconcile p s t).last_confirmed_sequence = s := by
  unfold PredictionState.reconcile
  rw [if_pos h]
  dsimp only
  split <;> rfl

/-- The pop-front-while-over loop leaves at most cap entries. -/
theorem popFrontWhileOver_length_le (cap : Nat) :
    ∀ (l : List α), (popFrontWhileOver cap l).length ≤ cap := by
  intro l
  induction l with
  | nil =>
      rw [popFrontWhileOver]
      simp
  | cons a as ih =>
      rw [popFrontWhileOver]
      split
      · simpa using ih
      · omega

/-! Claim theorems -/

/-- Claim C1: for every direction and every starting position the
    position update of Game::handle_input and the position update of
    PredictionState::apply_prediction are extensionally equal, and on
    every in-bounds position both agree with the displace-then-clamp rule
    the specification words (clamp x to [PLAYER_SIZE, BOARD_WIDTH -
    PLAYER_SIZE], y to [PLAYER_SIZE, BOARD_HEIGHT - PLAYER_SIZE -
    TOOL_BAR_HEIGHT]). -/
theorem c1_movement_refinement :
    (∀ (dir : Direction) (p : Position), handle_input_move dir p = apply_prediction_move dir p) ∧
    (∀ (dir : Direction) (p : Position), inBounds p → handle_input_move dir p = spec_move dir p) := by
  constructor
  · intro dir p
    cases dir <;> rfl
  · intro dir p h
    simp only [inBounds, PLAYER_SIZE, BOARD_WIDTH, BOARD_HEIGHT, TOOL_BAR_HEIGHT] at h
    obtain ⟨hx1, hx2, hy1, hy2⟩ := h
    obtain ⟨px, py⟩ := p
    cases dir <;>
      · simp only [handle_input_move, spec_move, saturating_add, saturating_sub,
          PLAYER_SIZE, PLAYER_SPEED, BOARD_WIDTH, BOARD_HEIGHT, TOOL_BAR_HEIGHT,
          I32_MIN, I32_MAX, Position.mk.injEq] at *
        constructor <;> omega

/-- Claim C1 witness: the two movement rules and the clamped displacement
    agree at direction Up from position (100, 100). -/
theorem c1_witness :
    handle_input_move Direction.Up { x := 100, y := 100 } =
      apply_prediction_move Direction.Up { x := 100, y := 100 } ∧
    handle_input_move Direction.Up { x := 100, y := 100 } =
      spec_move Direction.Up { x := 100, y := 100 } :=
  ⟨c1_movement_refinement.1 Direction.Up { x := 100, y := 100 },
   c1_movement_refinement.2 Direction.Up { x := 100, y := 100 } (by decide)⟩

/-- Input at sequence 10 still pending while the server acks sequence 7. -/
def c2_pending_input : PlayerInput := { dir := Direction.Right, sequence := 10, timestamp := 0 }

/-- A prediction state with previously confirmed sequence 0 and one
    pending input at sequence 10. -/
def c2_state : PredictionState :=
  { next_sequence := 11,
    pending_inputs := [(10, c2_pending_input)],
    position_history := [(10, { x := 100, y := 100 })],
    last_confirmed_sequence := 0,
    last_confirmed_position := { x := 100, y := 100 },
    last_reconciliation_time := 0 }

/-- Claim C2: the claim asserts that a reconcile whose ack exceeds the
    previously confirmed sequence by more than 5 empties the pending
    queue and the predicted history. The code overwrites
    last_confirmed_sequence before computing the gap, so the gap test at
    src/prediction.rs line 76 always reads 0 and the sequence-triggered
    hard resync never fires: acking sequence 7 over a previously
    confirmed 0 (gap 7 > 5, wall-clock gap 0 below the 0.5s threshold)
    leaves the pending input at sequence 10 and its history entry in
    place. -/
theorem c2_gap_resync_dead :
    7 - c2_state.last_confirmed_sequence > 5 ∧
    (c2_state.reconcile { x := 95, y := 85 } 7 0).pending_inputs = [(10, c2_pending_input)] ∧
    (c2_state.reconcile { x := 95, y := 85 } 7 0).position_history = [(10, { x := 100, y := 100 })] := by
  refine ⟨by decide, ?_, ?_⟩ <;>
    · norm_num [c2_state, PredictionState.reconcile, dropConfirmed, u32_wrapping_sub,
        c2_pending_input]

/-- Prediction state for the C4 scenario: confirmed baseline (100, 100),
    pending inputs Right, Right, Down. -/
def c4_state : PredictionState :=
  { next_sequence := 4,
    pending_inputs :=
      [(1, { dir := Direction.Right, sequence := 1, timestamp := 0 }),
       (2, { dir := Direction.Right, sequence := 2, timestamp := 0 }),
       (3, { dir := Direction.Down, sequence := 3, timestamp := 0 })],
    position_history := [],
    last_confirmed_sequence := 0,
    last_confirmed_position := { x := 100, y := 100 },
    last_reconciliation_time := 0 }

/-- Claim C4: reapply_pending_inputs starts from the confirmed baseline
    and replays the pending inputs in queue order with the prediction
    movement rule - its resulting position is the fold of the movement
    rule over the queue, for every state and every prior displayed
    position - and on the scenario state with baseline (100, 100) and
    pending [Right, Right, Down] the result is exactly (110, 105),
    independent of the displayed position before the call. -/
theorem c4_reapply_pending_inputs_replay :
    (∀ (st : PredictionState) (pos : Position),
      (st.reapply_pending_inputs pos).2 =
        (st.pending_inputs.map (fun e => e.2)).foldl
          (fun q i => apply_prediction_move i.dir q) st.last_confirmed_position) ∧
    (∀ pos : Position, (c4_state.reapply_pending_inputs pos).2 = { x := 110, y := 105 }) := by
  constructor
  · intro st pos
    unfold PredictionState.reapply_pending_inputs
    exact foldl_apply_prediction_snd _ _ _
  · intro pos
    rfl

/-- Claim C7: reconciling a second time with the same server position and
    ack sequence (no inputs added in between) is a no-op: the second call
    returns the state of the first unchanged, for every state and any
    pair of call times. -/
theorem c7_reconcile_idempotent :
    ∀ (st : PredictionState) (p : Position) (s : Nat) (t1 t2 : Rat),
      (st.reconcile p s t1).reconcile p s t2 = st.reconcile p s t1 := by
  intro st p s t1 t2
  by_cases h : s > st.last_confirmed_sequence
  · refine reconcile_stale_noop _ _ _ _ ?_
    rw [reconcile_last_confirmed st p s t1 h]
    omega
  · rw [reconcile_stale_noop st p s t1 h]
    exact reconcile_stale_noop st p s t2 h

/-- Claim C8: add_position with a sequence at most the last accepted
    sequence leaves the interpolation state unchanged in every field. -/
theorem c8_add_position_stale_noop :
    ∀ (st : InterpolationState) (pos : Position) (ts : Rat) (seq : Nat),
      seq ≤ st.last_sequence → st.add_position pos ts seq = st := by
  intro st pos ts seq h
  unfold InterpolationState.add_position
  rw [if_pos h]

/-- An interpolation state that has already accepted sequence 5. -/
def c8_state : InterpolationState :=
  { position_history :=
      [{ position := { x := 1, y := 2 }, timestamp := 1, sequence := 5 }],
    interpolation_delay := 1,
    last_sequence := 5,
    last_position := some { x := 1, y := 2 } }

/-- Claim C8 witness: adding sequence 3 after sequence 5 was accepted
    changes nothing. -/
theorem c8_witness : c8_state.add_position { x := 9, y := 9 } 2 3 = c8_state :=
  c8_add_position_stale_noop c8_state { x := 9, y := 9 } 2 3 (by decide)

/-- One local prediction step iterated from a fresh prediction state at
    (100, 100): each step calls apply_prediction with a Right input. -/
def c5_iter : Nat → PredictionState × Position
  | 0 => (PredictionState.new { x := 100, y := 100 }, { x := 100, y := 100 })
  | n + 1 =>
      (c5_iter n).1.apply_prediction
        { dir := Direction.Right, sequence := 0, timestamp := 0 } (c5_iter n).2

/-- apply_prediction appends one history entry per call and never evicts. -/
theorem c5_iter_history_length : ∀ n, (c5_iter n).1.position_history.length = n := by
  intro n
  induction n with
  | zero => rfl
  | succ n ih => simp [c5_iter, PredictionState.apply_prediction, ih]

/-- Claim C5 counterexample: the predicted-position history of the
    prediction engine is not capacity-bounded - 61 prediction steps from
    a fresh state leave 61 entries, beyond both capacities the claim
    names (60 for the server history, 30 for the interpolation buffer),
    with no oldest-entry eviction ever performed. -/
theorem c5_counterexample :
    (c5_iter 61).1.position_history.length = 61 ∧
    GAME_MAX_POSITION_HISTORY < 61 ∧ INTERP_MAX_POSITION_HISTORY < 61 :=
  ⟨c5_iter_history_length 61, by decide, by decide⟩

/-- Claim C5 as amended: the server per-player position history stays
    within 60 entries across handle_input (evicting the oldest), the
    interpolation buffer stays within 30 entries across add_position
    (evicting the oldest), but the prediction engine pending-input queue
    and predicted-position history are not capacity-bounded: every
    apply_prediction grows the history by exactly one and every
    pending-input push grows the queue by exactly one, with no eviction. -/
theorem c5_amended_buffer_bounds :
    (∀ (g : Game) (addr : Nat) (input : PlayerInput) (now : Nat) (p q : PlayerState),
      g.players addr = some p →
      p.position_history.length ≤ GAME_MAX_POSITION_HISTORY →
      (g.handle_input addr input now).players addr = some q →
      q.position_history.length ≤ GAME_MAX_POSITION_HISTORY) ∧
    (∀ (st : InterpolationState) (pos : Position) (ts : Rat) (seq : Nat),
      st.position_history.length ≤ INTERP_MAX_POSITION_HISTORY →
      (st.add_position pos ts seq).position_history.length ≤ INTERP_MAX_POSITION_HISTORY) ∧
    (∀ (st : PredictionState) (input : PlayerInput) (pos : Position),
      (st.apply_prediction input pos).1.position_history.length =
        st.position_history.length + 1 ∧
      (st.record_pending_input input).pending_inputs.length =
        st.pending_inputs.length + 1) := by
  refine ⟨?_, ?_, ?_⟩
  · intro g addr input now p q hp hlen hq
    simp only [Game.handle_input, hp, if_true] at hq
    injection hq with hq
    subst hq
    simp only [GAME_MAX_POSITION_HISTORY] at hlen ⊢
    split
    next h =>
      simp only [List.length_tail, List.length_append, List.length_cons, List.length_nil] at h ⊢
      omega
    next h =>
      simp only [List.length_append, List.length_cons, List.length_nil] at h ⊢
      omega
  · intro st pos ts seq hlen
    unfold InterpolationState.add_position
    split
    · exact hlen
    · exact popFrontWhileOver_length_le _ _
  · intro st input pos
    constructor
    · simp [PredictionState.apply_prediction]
    · simp [PredictionState.record_pending_input]

/-- Input used by the C5 witness. -/
def c5_w_input : PlayerInput := { dir := Direction.Down, sequence := 1, timestamp := 0 }

/-- Player state used by the C5 witness. -/
def c5_w_player : PlayerState :=
  { position := { x := 100, y := 100 }, color := 0, last_active := 0, position_history := [] }

/-- Game used by the C5 witness: one player at address 0 with id 7. -/
def c5_w_game : Game :=
  { players := fun a => if a = 0 then some c5_w_player else none,
    id_to_addr := fun k => if k = 7 then some 0 else none,
    addr_to_id := fun a => if a = 0 then some 7 else none,
    last_processed := fun _ => none }

/-- The player state produced by the C5 witness input application. -/
def c5_w_player2 : PlayerState :=
  { position := handle_input_move Direction.Down { x := 100, y := 100 },
    color := 0,
    last_active := 5,
    position_history :=
      [{ position := handle_input_move Direction.Down { x := 100, y := 100 }, timestamp := 5 }] }

/-- Claim C5 witness: the amended bounds evaluated at concrete inputs. -/
theorem c5_witness :
    c5_w_player2.position_history.length ≤ GAME_MAX_POSITION_HISTORY ∧
    (InterpolationState.new.add_position { x := 0, y := 0 } 0 1).position_history.length ≤
      INTERP_MAX_POSITION_HISTORY ∧
    ((PredictionState.new { x := 0, y := 0 }).apply_prediction c5_w_input
        { x := 0, y := 0 }).1.position_history.length =
      (PredictionState.new { x := 0, y := 0 }).position_history.length + 1 :=
  ⟨c5_amended_buffer_bounds.1 c5_w_game 0 c5_w_input 5 c5_w_player c5_w_player2
      (by decide) (by decide) (by decide),
   c5_amended_buffer_bounds.2.1 InterpolationState.new { x := 0, y := 0 } 0 1 (by decide),
   (c5_amended_buffer_bounds.2.2 (PredictionState.new { x := 0, y := 0 }) c5_w_input
      { x := 0, y := 0 }).1⟩

/-- Claim C6 as amended: a flush removes and transmits exactly the
    maximal elapsed front segment of the delay queue: the queue splits
    into the collected batch followed by the remaining queue, every
    packet of the batch has its delay elapsed, and the head of the
    remaining queue (when any packet remains) has not - an elapsed packet
    behind a not-yet-elapsed one therefore stays queued. -/
theorem c6_flush_ready_front_batch :
    ∀ (now : Int) (q : List DelayedPacket),
      q = (collectReady now q).1 ++ (collectReady now q).2 ∧
      (collectReady now q).1.all (fun p => packetReady now p) = true ∧
      (match (collectReady now q).2 with
       | [] => True
       | p :: _ => packetReady now p = false) := by
  intro now q
  induction q with
  | nil => exact ⟨rfl, rfl, trivial⟩
  | cons p rest ih =>
      obtain ⟨ih1, ih2, ih3⟩ := ih
      by_cases hr : packetReady now p = true
      · refine ⟨?_, ?_, ?_⟩
        · simp only [collectReady, hr, if_true, List.cons_append]
          exact congrArg (List.cons p) ih1
        · simp only [collectReady, hr, if_true, List.all_cons, Bool.true_and]
          exact ih2
        · simp only [collectReady, hr, if_true]
          exact ih3
      · have hrf : packetReady now p = false := Bool.not_eq_true _ ▸ hr
        refine ⟨?_, ?_, ?_⟩
        · simp [collectReady, hrf]
        · simp [collectReady, hrf]
        · simp [collectReady, hrf]

/-- A packet enqueued at time 0 with a 10 ms jittered delay. -/
def c6_pkt1 : DelayedPacket :=
  { data := ClientMessage.Connect, send_time := 0, sequence := 1, delay := 10 }

/-- A packet enqueued at time 0 with a 5 ms jittered delay, sitting
    behind c6_pkt1 in the queue. -/
def c6_pkt2 : DelayedPacket :=
  { data := ClientMessage.Ping 0, send_time := 0, sequence := 2, delay := 5 }

/-- A simulator client whose delay queue holds c6_pkt1 then c6_pkt2. -/
def c6_client : NetworkClient :=
  { delay_ms := 100, packet_loss := 0, delayed_packets := [c6_pkt1, c6_pkt2] }

/-- Claim C6 counterexample: at time 7 the second packet (delay 5) has
    elapsed, yet the flush transmits nothing and the elapsed packet stays
    queued, because the not-yet-elapsed first packet (delay 10) sits
    ahead of it and the collection loop stops at the first non-ready
    packet. -/
theorem c6_counterexample :
    packetReady 7 c6_pkt2 = true ∧
    packetReady 7 c6_pkt1 = false ∧
    (c6_client.process_delayed_packets 7).2 = [] ∧
    c6_pkt2 ∈ (c6_client.process_delayed_packets 7).1.delayed_packets := by
  refine ⟨by decide, by decide, ?_, ?_⟩ <;>
    · simp [NetworkClient.process_delayed_packets, collectReady, c6_client, c6_pkt1, c6_pkt2,
        packetReady]

/-- A simulator client configured for 100 percent packet loss. -/
def c9_client : NetworkClient :=
  { delay_ms := 0, packet_loss := 100, delayed_packets := [] }

/-- Claim C9 counterexample: with packet loss at 100 percent,
    send_connect and send_ping still transmit their datagrams - they
    never consult the loss simulation - so not every outbound packet is
    dropped. -/
theorem c9_counterexample :
    c9_client.packet_loss = 100 ∧
    c9_client.send_connect = some ClientMessage.Connect ∧
    c9_client.send_ping 42 = some (ClientMessage.Ping 42) := by
  exact ⟨rfl, rfl, rfl⟩

/-- Claim C9 as amended: with packet loss configured at 100 percent,
    every send_input is dropped (no datagram transmitted, delay queue
    untouched) and every receive returns nothing, for every loss draw in
    [0, 1); but Connect and Ping sends bypass the loss simulation and
    always transmit. -/
theorem c9_amended_loss_simulation :
    ∀ (c : NetworkClient) (input : PlayerInput) (r : Rat) (j now : Int)
      (inc : Option ClientMessage) (t : Nat),
      c.packet_loss = 100 → 0 ≤ r → r < 1 →
      c.send_input input r j now = (c, none) ∧
      (c.receive_data r now inc).2 = none ∧
      c.send_connect = some ClientMessage.Connect ∧
      c.send_ping t = some (ClientMessage.Ping t) := by
  intro c input r j now inc t hloss hr0 hr1
  have hsim : simulate_network_conditions c.packet_loss r = true := by
    simp only [simulate_network_conditions, hloss, decide_eq_true_eq]
    norm_num
    exact hr1
  refine ⟨?_, ?_, rfl, rfl⟩
  · unfold NetworkClient.send_input
    rw [hsim]
    simp
  · unfold NetworkClient.receive_data
    dsimp only
    have hpl : (c.process_delayed_packets now).1.packet_loss = c.packet_loss := rfl
    rw [hpl, hsim]
    simp

/-- Input used by the C9 witness. -/
def c9_w_input : PlayerInput := { dir := Direction.Up, sequence := 0, timestamp := 0 }

/-- Claim C9 witness: the amended statement at loss draw 0 on the
    concrete 100 percent loss client. -/
theorem c9_witness :
    c9_client.send_input c9_w_input 0 0 0 = (c9_client, none) ∧
    (c9_client.receive_data 0 0 (some ClientMessage.Connect)).2 = none ∧
    c9_client.send_connect = some ClientMessage.Connect ∧
    c9_client.send_ping 42 = some (ClientMessage.Ping 42) :=
  c9_amended_loss_simulation c9_client c9_w_input 0 0 0 (some ClientMessage.Connect) 42
    (by decide) (by decide) (by decide)

/-- Claim C10: for a connected address, handle_input unconditionally
    overwrites the last-processed sequence of that player with the
    incoming sequence - no monotonic gate compares it with the recorded
    value - and still applies the displacement to the player position. -/
theorem c10_no_sequence_gate :
    ∀ (g : Game) (addr id : Nat) (input : PlayerInput) (now : Nat) (player : PlayerState),
      g.players addr = some player → g.addr_to_id addr = some id →
      (g.handle_input addr input now).last_processed id = some input.sequence ∧
      ∃ player2,
        (g.handle_input addr input now).players addr = some player2 ∧
        player2.position = handle_input_move input.dir player.position := by
  intro g addr id input now player hp hid
  constructor
  · simp [Game.handle_input, hp, hid]
  · simp only [Game.handle_input, hp, if_true]
    exact ⟨_, rfl, rfl⟩

/-- Player used by the C10 witness. -/
def c10_player : PlayerState :=
  { position := { x := 100, y := 100 }, color := 1, last_active := 0,
    position_history := [{ position := { x := 100, y := 100 }, timestamp := 0 }] }

/-- Game used by the C10 witness: address 1 maps to id 7, whose recorded
    last-processed sequence is 5. -/
def c10_game : Game :=
  { players := fun a => if a = 1 then some c10_player else none,
    id_to_addr := fun k => if k = 7 then some 1 else none,
    addr_to_id := fun a => if a = 1 then some 7 else none,
    last_processed := fun k => if k = 7 then some 5 else none }

/-- Stale input used by the C10 witness: sequence 3, below the recorded 5. -/
def c10_input : PlayerInput := { dir := Direction.Right, sequence := 3, timestamp := 0 }

/-- Claim C10 witness: the input with sequence 3 overwrites the recorded
    sequence 5 (the advertised value decreases) and the player still
    moves. -/
theorem c10_witness :
    (c10_game.handle_input 1 c10_input 9).last_processed 7 = some 3 ∧
    ∃ player2,
      (c10_game.handle_input 1 c10_input 9).players 1 = some player2 ∧
      player2.position = handle_input_move Direction.Right c10_player.position :=
  c10_no_sequence_gate c10_game 1 7 c10_input 9 c10_player (by decide) (by decide)

/-- Claim C3: in the reconnect-capable store (modelled from the spec), a
    reconnect attempted before the grace period expires succeeds exactly
    when previous_id has a DisconnectedRecord and is not presently mapped
    to a live address, and on success it restores the same id and the
    prior color; after the grace period has elapsed (or with an unknown
    id) the reconnect fails and a plain connect hands the client a fresh
    id instead. The hypotheses are the allocator invariant (every known
    id is below next_id) and that the reconnecting address has no live
    session. -/
theorem c3_reconnect_grace (g : ReconnectStore) (addr previous_id : Nat)
    (claimed_position spawn_position : Position) (spawn_color : Nat) (now grace_period : Nat)
    (hfresh : previous_id < g.next_id) (hnolive : g.live addr = none) :
    (∀ record, g.records previous_id = some record →
      now < record.disconnect_time + grace_period →
      (((g.reconnect addr previous_id claimed_position now grace_period).2 = true) ↔
        g.id_to_addr previous_id = none) ∧
      (g.id_to_addr previous_id = none →
        (g.reconnect addr previous_id claimed_position now grace_period).1.live addr =
          some { id := previous_id, position := claimed_position, color := record.color })) ∧
    (∀ record, g.records previous_id = some record →
      record.disconnect_time + grace_period ≤ now →
      (g.reconnect addr previous_id claimed_position now grace_period).2 = false ∧
      (g.connect addr spawn_position spawn_color).2 ≠ previous_id) ∧
    (g.records previous_id = none →
      (g.reconnect addr previous_id claimed_position now grace_period).2 = false ∧
      (g.connect addr spawn_position spawn_color).2 ≠ previous_id) := by
  have hconn : (g.connect addr spawn_position spawn_color).2 = g.next_id := by
    unfold ReconnectStore.connect
    rw [hnolive]
  refine ⟨?_, ?_, ?_⟩
  · intro record hrec htime
    constructor
    · unfold ReconnectStore.reconnect
      rw [hrec]
      dsimp only
      by_cases hid : g.id_to_addr previous_id = none
      · rw [if_pos ⟨hid, htime⟩]
        simp [hid]
      · rw [if_neg (fun hand => hid hand.1)]
        simp [hid]
    · intro hid
      unfold ReconnectStore.reconnect
      rw [hrec]
      dsimp only
      rw [if_pos ⟨hid, htime⟩]
      simp
  · intro record hrec htime
    refine ⟨?_, ?_⟩
    · unfold ReconnectStore.reconnect
      rw [hrec]
      dsimp only
      rw [if_neg ?_]
      rintro ⟨-, h2⟩
      omega
    · rw [hconn]
      omega
  · intro hnone
    refine ⟨?_, ?_⟩
    · unfold ReconnectStore.reconnect
      rw [hnone]
    · rw [hconn]
      omega

/-- DisconnectedRecord used by the C3 witness: id 2 disconnected at time
    100 with color 123. -/
def c3_record : DisconnectedRecord :=
  { position := { x := 50, y := 60 }, color := 123, disconnect_time := 100 }

/-- Store used by the C3 witness: no live sessions, one
    DisconnectedRecord for id 2, next fresh id 5. -/
def c3_store : ReconnectStore :=
  { live := fun _ => none,
    id_to_addr := fun _ => none,
    records := fun k => if k = 2 then some c3_record else none,
    next_id := 5 }

/-- Claim C3 witness: at time 150 inside the 100-long grace window the
    reconnect of id 2 succeeds and restores id 2 with color 123; at time
    300, past the window, it fails and a plain connect yields a fresh id
    different from 2. -/
theorem c3_witness :
    ((((c3_store.reconnect 0 2 { x := 10, y := 10 } 150 100).2 = true) ↔
        c3_store.id_to_addr 2 = none) ∧
      (c3_store.id_to_addr 2 = none →
        (c3_store.reconnect 0 2 { x := 10, y := 10 } 150 100).1.live 0 =
          some { id := 2, position := { x := 10, y := 10 }, color := c3_record.color })) ∧
    ((c3_store.reconnect 0 2 { x := 10, y := 10 } 300 100).2 = false ∧
      (c3_store.connect 0 { x := 30, y := 30 } 9).2 ≠ 2) :=
  ⟨(c3_reconnect_grace c3_store 0 2 { x := 10, y := 10 } { x := 30, y := 30 } 9 150 100
      (by decide) (by decide)).1 c3_record (by decide) (by decide),
   ((c3_reconnect_grace c3_store 0 2 { x := 10, y := 10 } { x := 30, y := 30 } 9 300 100
      (by decide) (by decide)).2.1 c3_record (by decide) (by decide))⟩

end Netcode
